import Mathlib

/-!
Shallow embedding of `aerosandbox/geometry/airplane.py` (class `Airplane`):
the aircraft aggregate data model, reference-quantity resolution at
construction, the symmetry validator, the aerodynamic-center aggregator,
and the AVL geometry serializer.  Machine floats are modelled as `ℚ`;
Python `None`-able values as `Option`; Python exceptions as `Except`.
The wing / fuselage / airfoil collaborators are external to this module
(spec §2), so their queries are carried as data fields on the records.
-/

/-- A 3-component vector, modelling the `np.ndarray` points used for
leading-edge positions, reference points and aerodynamic centers. -/
structure Vec3 where
  x : ℚ
  y : ℚ
  z : ℚ
  deriving DecidableEq, Repr

/-- Componentwise vector addition (numpy `+`). -/
def Vec3.add (v w : Vec3) : Vec3 := ⟨v.x + w.x, v.y + w.y, v.z + w.z⟩

/-- The zero vector, the start value of Python `sum`. -/
def Vec3.zero : Vec3 := ⟨0, 0, 0⟩

/-- Scalar times vector (numpy `AC * area`). -/
def Vec3.scale (a : ℚ) (v : Vec3) : Vec3 := ⟨a * v.x, a * v.y, a * v.z⟩

/-- Vector divided by a scalar (numpy `vec / scalar`). -/
def Vec3.divScalar (v : Vec3) (a : ℚ) : Vec3 := ⟨v.x / a, v.y / a, v.z / a⟩

/-- Python exceptions that the embedded code can raise. -/
inductive PyError where
  /-- `TypeError`, e.g. from `Path(None)`. -/
  | typeError
  /-- `ZeroDivisionError`, from dividing the Python int `0` by `0`. -/
  | zeroDivisionError
  /-- Marker for a numpy elementwise division of an array by the scalar
  zero, which silently yields a non-finite array; `ℚ` cannot represent
  that value, so the embedding tags it instead of returning garbage. -/
  | nonfiniteResult
  deriving DecidableEq, Repr

/-- External airfoil collaborator (spec §6): only the queries the
aggregate consumes are modelled, as data. -/
structure Airfoil where
  /-- `CL_function(alpha, Re, mach, deflection)`. -/
  CL_function : ℚ → ℚ → ℚ → ℚ → ℚ
  /-- `Cm_function(alpha, Re, mach, deflection)`. -/
  Cm_function : ℚ → ℚ → ℚ → ℚ → ℚ
  /-- `max_thickness()`. -/
  max_thickness : ℚ
  /-- The text of `repanel(n).write_dat(filepath=None, include_name=False)`. -/
  repanel_write_dat : Nat → String

/-- External wing cross-section collaborator (spec §3). -/
structure WingXSec where
  xyz_le : Vec3
  chord : ℚ
  twist : ℚ
  twist_axis : Vec3
  airfoil : Airfoil
  control_surface_is_symmetric : Bool
  control_surface_deflection : ℚ

/-- External wing collaborator (spec §6): geometric queries are data
fields; `area` takes the optional `type=` keyword (`none` = the call
`wing.area()` with its default), `aerodynamic_center` takes the optional
`chord_fraction` argument (`none` = the call with its default). -/
structure Wing where
  name : String
  xyz_le : Vec3
  symmetric : Bool
  xsecs : List WingXSec
  area : Option String → ℚ
  mean_aerodynamic_chord : ℚ
  span : ℚ
  aerodynamic_center : Option ℚ → Vec3
  is_entirely_symmetric : Bool

/-- External fuselage collaborator. -/
structure Fuselage where
  name : String
  xyz_le : Vec3

/-- The aircraft aggregate (class `Airplane`): state after `__init__`. -/
structure Airplane where
  name : String
  xyz_ref : Vec3
  wings : List Wing
  fuselages : List Fuselage
  s_ref : Option ℚ
  c_ref : Option ℚ
  b_ref : Option ℚ

/-- `Airplane.__init__` (airplane.py lines 15-54).  The `try`/`except
IndexError` around `self.wings[0]` is embedded as a match on the wing
list: the empty case corresponds to the caught `IndexError`, leaving the
reference quantities as supplied. -/
def Airplane.init (name : String := "Untitled") (xyz_ref : Vec3 := ⟨0, 0, 0⟩)
    (wings : Option (List Wing) := none)
    (fuselages : Option (List Fuselage) := none)
    (s_ref : Option ℚ := none) (c_ref : Option ℚ := none)
    (b_ref : Option ℚ := none) : Airplane :=
  let ws : List Wing := match wings with
    | some w => w
    | none => []
  let fs : List Fuselage := match fuselages with
    | some f => f
    | none => []
  match ws with
  | [] =>
      { name := name, xyz_ref := xyz_ref, wings := [], fuselages := fs,
        s_ref := s_ref, c_ref := c_ref, b_ref := b_ref }
  | main_wing :: rest =>
      { name := name, xyz_ref := xyz_ref, wings := main_wing :: rest,
        fuselages := fs,
        s_ref := some (s_ref.getD (main_wing.area none)),
        c_ref := some (c_ref.getD main_wing.mean_aerodynamic_chord),
        b_ref := some (b_ref.getD main_wing.span) }

/-- `Airplane.is_entirely_symmetric` (airplane.py lines 129-151): the
early-`return False` loop is embedded as `List.all` over short-circuit
Boolean connectives. -/
def Airplane.is_entirely_symmetric (a : Airplane) : Bool :=
  a.wings.all fun wing =>
    wing.is_entirely_symmetric &&
    wing.xsecs.all fun xsec =>
      (xsec.control_surface_is_symmetric
        || decide (xsec.control_surface_deflection = 0)) &&
      (wing.symmetric ||
        (decide (xsec.xyz_le.y = 0) &&
         (decide (xsec.twist = 0)
           || (decide (xsec.twist_axis.x = 0)
                && decide (xsec.twist_axis.z = 0))) &&
         decide (xsec.airfoil.CL_function 0 1000000 0 0 = 0) &&
         decide (xsec.airfoil.Cm_function 0 1000000 0 0 = 0)))

/-- `Airplane.aerodynamic_center` (airplane.py lines 153-181).  With no
wings both Python sums are the int `0` and `0 / 0` raises
`ZeroDivisionError`; with wings but zero total projected area numpy's
array-by-zero division silently yields a non-finite array, which `ℚ`
cannot represent, so the embedding tags that case distinctly.  Note the
source calls `wing.aerodynamic_center()` with no argument, so the
wing-level default is used, not `chord_fraction`. -/
def Airplane.aerodynamic_center (a : Airplane) (chord_fraction : ℚ := 1/4) :
    Except PyError Vec3 :=
  let wing_areas : List ℚ := a.wings.map fun wing => wing.area (some "projected")
  let ACs : List Vec3 := a.wings.map fun wing => wing.aerodynamic_center none
  let wing_AC_area_products : List Vec3 :=
    List.zipWith (fun AC area => Vec3.scale area AC) ACs wing_areas
  let denom : ℚ := wing_areas.foldl (fun s q => s + q) 0
  let numer : Vec3 := wing_AC_area_products.foldl Vec3.add Vec3.zero
  if denom = 0 then
    if a.wings.isEmpty then Except.error PyError.zeroDivisionError
    else Except.error PyError.nonfiniteResult
  else Except.ok (numer.divScalar denom)

/-! ## String machinery for the AVL serializer

Python string primitives are embedded at the `List Char` level so that
the serializer's whitespace normalization is fully executable and
provable. -/

/-- Python `str.isspace` characters relevant to `str.strip()`. -/
def pyIsSpace (c : Char) : Bool :=
  c = ' ' || c = '\t' || c = '\n' || c = '\r' || c = '\x0b' || c = '\x0c'

/-- Python `line.strip()` on a list of characters. -/
def stripData (l : List Char) : List Char :=
  ((l.dropWhile pyIsSpace).reverse.dropWhile pyIsSpace).reverse

/-- Python `s.split("\n")` on a list of characters. -/
def splitNl : List Char → List (List Char)
  | [] => [[]]
  | c :: cs =>
    if c = '\n' then [] :: splitNl cs
    else
      match splitNl cs with
      | [] => [[c]]
      | l :: ls => (c :: l) :: ls

/-- Python `"\n".join(...)` on lists of characters. -/
def joinLines : List (List Char) → List Char
  | [] => []
  | [l] => l
  | l :: l2 :: ls => l ++ '\n' :: joinLines (l2 :: ls)

/-- The serializer's local helper `clean` (airplane.py lines 204-209):
`"\n".join([line.strip() for line in s.split("\n")])`. -/
def cleanData (cs : List Char) : List Char :=
  joinLines ((splitNl cs).map stripData)

/-- String-level wrapper of `cleanData`. -/
def clean (s : String) : String := ⟨cleanData s.data⟩

/-- Does the second list occur at the head of the first? -/
def startsWithL : List Char → List Char → Bool
  | _, [] => true
  | [], _ :: _ => false
  | c :: s, d :: p => (c = d) && startsWithL s p

/-- Does the second list occur contiguously anywhere in the first? -/
def containsL : List Char → List Char → Bool
  | [], p => startsWithL [] p
  | c :: s, p => startsWithL (c :: s) p || containsL s p

/-- Substring occurrence test for strings. -/
def strContains (s p : String) : Bool := containsL s.data p.data

/-- Concatenation of a list of strings in order. -/
def strJoin : List String → String
  | [] => ""
  | s :: rest => s ++ strJoin rest

/-- A string of `n` copies of `c` (Python `c * n`). -/
def repChar (n : Nat) (c : Char) : String := ⟨List.replicate n c⟩

/-- Python `str(x)` of a float, embedded as the decimal/fraction
rendering of `ℚ` (the numeral text is abstracted; claims pin only the
`None` placeholder, not float formatting). -/
def numStr (q : ℚ) : String := toString q

/-- Python interpolation of a `None`-able float: `str(None) = "None"`. -/
def pyOptStr : Option ℚ → String
  | none => "None"
  | some q => numStr q

/-! ## AVL serializer templates (airplane.py lines 211-281)

Each `f\"\"\"...\"\"\"` template is transcribed verbatim, with its source
indentation; `clean` strips each line afterwards, exactly as the code
does.  Claim-relevant lines (the Sref header line, the BFIL path line)
are grouped as `pre ++ \"\\n\" ++ line ++ \"\\n\" ++ post` to keep their
boundaries visible to proofs; the assembled string is identical. -/

/-- The header template through the `#Sref    Cref    Bref` label line. -/
def headerPre (a : Airplane) : String :=
  "        " ++ a.name ++ "\n" ++
  "        #Mach\n" ++
  "        0\n" ++
  "        #IYsym   IZsym   Zsym\n" ++
  "         0       0       0.0\n" ++
  "        #Sref    Cref    Bref"

/-- The header's reference-quantity line, `{s_ref} {c_ref} {b_ref}`. -/
def headerRefLine (a : Airplane) : String :=
  "        " ++ pyOptStr a.s_ref ++ " " ++ pyOptStr a.c_ref ++ " "
    ++ pyOptStr a.b_ref

/-- The header template after the reference-quantity line. -/
def headerPost (a : Airplane) : String :=
  "        #Xref    Yref    Zref\n" ++
  "        " ++ numStr a.xyz_ref.x ++ " " ++ numStr a.xyz_ref.y ++ " "
    ++ numStr a.xyz_ref.z ++ "\n" ++
  "        # CDp\n" ++
  "        0\n" ++
  "        "

/-- The raw header f-string (airplane.py lines 213-225). -/
def headerRaw (a : Airplane) : String :=
  headerPre a ++ "\n" ++ headerRefLine a ++ "\n" ++ headerPost a

/-- The raw per-wing SURFACE f-string (airplane.py lines 230-243). -/
def wingRaw (chordwise_panel_resolution spanwise_panel_resolution : Nat)
    (wing : Wing) : String :=
  let symmetry_line : String := if wing.symmetric then "YDUPLICATE\n0" else ""
  "            #" ++ repChar 50 '=' ++ "\n" ++
  "            SURFACE\n" ++
  "            " ++ wing.name ++ "\n" ++
  "            #Nchordwise  Cspace   Nspanwise   Sspace\n" ++
  "            " ++ toString chordwise_panel_resolution ++ "   1.0   "
    ++ toString spanwise_panel_resolution ++ "   1.0\n" ++
  "            #\n" ++
  "            " ++ symmetry_line ++ "\n" ++
  "            #\n" ++
  "            TRANSLATE\n" ++
  "            " ++ numStr wing.xyz_le.x ++ " " ++ numStr wing.xyz_le.y
    ++ " " ++ numStr wing.xyz_le.z ++ "\n" ++
  "            ANGLE\n" ++
  "            0\n" ++
  "            "

/-- The raw per-cross-section SECTION f-string (airplane.py lines
247-262).  `0.77` is the exact decimal of the source literal. -/
def xsecRaw (xsec : WingXSec) : String :=
  "                #" ++ repChar 50 '-' ++ "\n" ++
  "                SECTION\n" ++
  "                #Xle    Yle    Zle     Chord   Ainc\n" ++
  "                " ++ numStr xsec.xyz_le.x ++ " " ++ numStr xsec.xyz_le.y
    ++ " " ++ numStr xsec.xyz_le.z ++ " " ++ numStr xsec.chord ++ " "
    ++ numStr xsec.twist ++ "\n" ++
  "                \n" ++
  "                AIRFOIL\n" ++
  "                " ++ xsec.airfoil.repanel_write_dat 50 ++ "\n" ++
  "                \n" ++
  "                #Cname   Cgain  Xhinge  HingeVec     SgnDup # TODO\n" ++
  "                #CONTROL\n" ++
  "                #csurf     1.0   0.75    0.0 0.0 0.0   1.0\n" ++
  "                \n" ++
  "                CLAF\n" ++
  "                " ++ numStr (1 + 77/100 * xsec.airfoil.max_thickness)
    ++ " # Computed using rule from avl_doc.txt\n" ++
  "                "

/-- The BODY template through the `BFIL` keyword line. -/
def bodyPre (fuse_panel_resolution : Nat) (fuse : Fuselage) : String :=
  "            #" ++ repChar 50 '=' ++ "\n" ++
  "            BODY\n" ++
  "            " ++ fuse.name ++ "\n" ++
  "            " ++ toString fuse_panel_resolution ++ " 1\n" ++
  "            \n" ++
  "            TRANSLATE\n" ++
  "            " ++ numStr fuse.xyz_le.x ++ " " ++ numStr fuse.xyz_le.y
    ++ " " ++ numStr fuse.xyz_le.z ++ "\n" ++
  "            \n" ++
  "            BFIL"

/-- The raw per-body BODY f-string (airplane.py lines 269-281). -/
def bodyRaw (fuse_panel_resolution : Nat) (fuse : Fuselage)
    (fuse_filepath : String) : String :=
  bodyPre fuse_panel_resolution fuse ++ "\n" ++
  ("            " ++ fuse_filepath) ++ "\n" ++
  ("            \n" ++
   "            ")

/-- The auxiliary profile-file path for body index `i`:
`Path(str(filepath) + f".fuse{i}")` (airplane.py line 265). -/
def fusePath (filepath : String) (i : Nat) : String :=
  filepath ++ ".fuse" ++ toString i

/-- The result of `write_avl`: the returned document string, the
auxiliary body-profile files written (via `fuse.write_avl_bfile`), in
write order, and the main destination written at the end. -/
structure AvlOutput where
  doc : String
  fuse_files : List String
  main_file : String

/-- One iteration of the wing loop (airplane.py lines 227-262): append
the SURFACE block, then the SECTION block of each cross-section. -/
def wingStep (chordwise_panel_resolution spanwise_panel_resolution : Nat)
    (s : String) (wing : Wing) : String :=
  wing.xsecs.foldl (fun s2 xsec => s2 ++ clean (xsecRaw xsec))
    (s ++ clean (wingRaw chordwise_panel_resolution spanwise_panel_resolution wing))

/-- One iteration of the fuselage loop (airplane.py lines 264-281):
write the auxiliary profile file, then append the BODY block. -/
def fuseStep (fp : String) (fuse_panel_resolution : Nat)
    (acc : String × List String) (p : Nat × Fuselage) : String × List String :=
  let fuse_filepath := fusePath fp p.1
  (acc.1 ++ clean (bodyRaw fuse_panel_resolution p.2 fuse_filepath),
   acc.2 ++ [fuse_filepath])

/-- `Airplane.write_avl` (airplane.py lines 183-287).  The first
statement of the body is `filepath = Path(filepath)` (line 202): when
the caller passes `None`, `Path(None)` raises `TypeError` before any
output is produced, despite the docstring's promise of string-only
mode.  After that reassignment `filepath` is never `None`, so the final
`if filepath is not None` write (line 283) always runs; the main file is
therefore always written, recorded in `main_file`. -/
def Airplane.write_avl (a : Airplane) (filepath : Option String)
    (spanwise_panel_resolution : Nat := 12)
    (chordwise_panel_resolution : Nat := 12)
    (fuse_panel_resolution : Nat := 24) : Except PyError AvlOutput :=
  match filepath with
  | none => Except.error PyError.typeError
  | some fp =>
    let s0 : String := "" ++ clean (headerRaw a)
    let s1 : String :=
      a.wings.foldl
        (wingStep chordwise_panel_resolution spanwise_panel_resolution) s0
    let res : String × List String :=
      (a.fuselages.enum).foldl (fuseStep fp fuse_panel_resolution)
        (s1, ([] : List String))
    Except.ok { doc := res.1, fuse_files := res.2, main_file := fp }

/-- A wing's full serialized contribution: its SURFACE block followed by
one SECTION block per cross-section, in order. -/
def surfaceBlock (chordwise spanwise : Nat) (wing : Wing) : String :=
  clean (wingRaw chordwise spanwise wing)
    ++ strJoin (wing.xsecs.map fun xsec => clean (xsecRaw xsec))

/-- An indexed fuselage's serialized BODY block. -/
def bodyBlock (fuse_panel_resolution : Nat) (fp : String)
    (p : Nat × Fuselage) : String :=
  clean (bodyRaw fuse_panel_resolution p.2 (fusePath fp p.1))

/-! ## Spec-side definition for the refinement claim on the
aerodynamic-center aggregation -/

/-- Sum of a list of vectors. -/
def vecSum (l : List Vec3) : Vec3 := l.foldr Vec3.add Vec3.zero

/-- Modelled from the spec's words (§4.3): "for every lifting surface,
query its projected planform area and its own aerodynamic-center point;
form the area-weighted sum Σ(AC_i * area_i) / Σ(area_i)".  Written
independently of the code for comparison. -/
def spec_area_weighted_ac (wings : List Wing) : Vec3 :=
  Vec3.divScalar
    (vecSum (wings.map fun w =>
      Vec3.scale (w.area (some "projected")) (w.aerodynamic_center none)))
    ((wings.map fun w => w.area (some "projected")).sum)

/-! ## Concrete fixtures used by witnesses and counterexamples -/

/-- A minimal wing with the given projected area and aerodynamic center;
all other collaborator queries are inert. -/
def mkWing (nm : String) (ar : ℚ) (ac : Vec3) : Wing :=
  { name := nm, xyz_le := ⟨0, 0, 0⟩, symmetric := true, xsecs := [],
    area := fun _ => ar, mean_aerodynamic_chord := 1, span := 1,
    aerodynamic_center := fun _ => ac, is_entirely_symmetric := true }

/-- Wing of projected area 1 with aerodynamic center at the origin. -/
def wingA : Wing := mkWing "A" 1 ⟨0, 0, 0⟩

/-- Wing of projected area 3 with aerodynamic center at (4,0,0). -/
def wingB : Wing := mkWing "B" 3 ⟨4, 0, 0⟩

/-- A two-wing airplane realizing the spec's area-weighting example. -/
def twoWingPlane : Airplane :=
  Airplane.init "Two" ⟨0, 0, 0⟩ (some [wingA, wingB]) none none none none

/-- An airplane constructed with no wings and no fuselages. -/
def emptyPlane : Airplane :=
  Airplane.init "Empty" ⟨0, 0, 0⟩ none none none none none

/-- A wing whose aerodynamic-center query visibly depends on the
`chord_fraction` argument it receives (default 1/4). -/
def cfWing : Wing :=
  { name := "CF", xyz_le := ⟨0, 0, 0⟩, symmetric := true, xsecs := [],
    area := fun _ => 1, mean_aerodynamic_chord := 1, span := 1,
    aerodynamic_center := fun cf => ⟨cf.getD (1/4), 0, 0⟩,
    is_entirely_symmetric := true }

/-- Airplane holding only `cfWing`. -/
def cfPlane : Airplane :=
  Airplane.init "CFP" ⟨0, 0, 0⟩ (some [cfWing]) none none none none

/-- An airfoil whose lift response at zero incidence is 1 (asymmetric
airfoil). -/
def asymAirfoil : Airfoil :=
  { CL_function := fun _ _ _ _ => 1, Cm_function := fun _ _ _ _ => 0,
    max_thickness := 12/100, repanel_write_dat := fun _ => "1.0 0.0" }

/-- A cross-section carrying `asymAirfoil`, otherwise symmetric. -/
def asymXsec : WingXSec :=
  { xyz_le := ⟨0, 0, 0⟩, chord := 1, twist := 0, twist_axis := ⟨1, 0, 0⟩,
    airfoil := asymAirfoil, control_surface_is_symmetric := true,
    control_surface_deflection := 0 }

/-- A wing marked self-symmetric whose only cross-section carries the
asymmetric airfoil. -/
def symWingAsymAirfoil : Wing :=
  { name := "SA", xyz_le := ⟨0, 0, 0⟩, symmetric := true,
    xsecs := [asymXsec], area := fun _ => 1, mean_aerodynamic_chord := 1,
    span := 1, aerodynamic_center := fun _ => ⟨0, 0, 0⟩,
    is_entirely_symmetric := true }

/-- Airplane holding only `symWingAsymAirfoil`. -/
def symWingAsymAirfoilPlane : Airplane :=
  Airplane.init "SAP" ⟨0, 0, 0⟩ (some [symWingAsymAirfoil]) none none none none

/-- A wing not marked self-symmetric whose only cross-section carries
the asymmetric airfoil. -/
def nonSymWing : Wing :=
  { name := "NS", xyz_le := ⟨0, 0, 0⟩, symmetric := false,
    xsecs := [asymXsec], area := fun _ => 1, mean_aerodynamic_chord := 1,
    span := 1, aerodynamic_center := fun _ => ⟨0, 0, 0⟩,
    is_entirely_symmetric := true }

/-- Airplane holding only `nonSymWing`. -/
def nonSymPlane : Airplane :=
  Airplane.init "NSP" ⟨0, 0, 0⟩ (some [nonSymWing]) none none none none

/-- A wing whose own symmetry query reports false. -/
def falseWing : Wing :=
  { name := "F", xyz_le := ⟨0, 0, 0⟩, symmetric := true, xsecs := [],
    area := fun _ => 1, mean_aerodynamic_chord := 1, span := 1,
    aerodynamic_center := fun _ => ⟨0, 0, 0⟩,
    is_entirely_symmetric := false }

/-- Airplane holding only `falseWing`. -/
def falsePlane : Airplane :=
  Airplane.init "FP" ⟨0, 0, 0⟩ (some [falseWing]) none none none none

/-- A fuselage fixture. -/
def fuseA : Fuselage := { name := "Fuse", xyz_le := ⟨0, 0, 0⟩ }

/-- Airplane with one wing and one fuselage, for serializer witnesses. -/
def oneFusePlane : Airplane :=
  Airplane.init "OF" ⟨0, 0, 0⟩ (some [wingA]) (some [fuseA]) none none none


/-! ## Algebraic helper lemmas -/

theorem vec_zero_add (v : Vec3) : Vec3.zero.add v = v := by
  cases v
  simp [Vec3.add, Vec3.zero]

theorem vec_add_assoc (u v w : Vec3) : (u.add v).add w = u.add (v.add w) := by
  cases u
  cases v
  cases w
  simp only [Vec3.add, Vec3.mk.injEq]
  exact ⟨by ring, by ring, by ring⟩

theorem divScalar_scale (a : ℚ) (v : Vec3) (h : a ≠ 0) :
    (Vec3.scale a v).divScalar a = v := by
  cases v
  simp only [Vec3.scale, Vec3.divScalar, Vec3.mk.injEq]
  exact ⟨mul_div_cancel_left₀ _ h, mul_div_cancel_left₀ _ h,
    mul_div_cancel_left₀ _ h⟩

theorem foldl_add_eq_sum (l : List ℚ) :
    ∀ x : ℚ, l.foldl (fun s q => s + q) x = x + l.sum := by
  induction l with
  | nil => intro x; simp
  | cons a t ih =>
      intro x
      simp only [List.foldl_cons, List.sum_cons, ih]
      ring

theorem foldl_vec_add (l : List Vec3) :
    ∀ v : Vec3, l.foldl Vec3.add v = v.add (vecSum l) := by
  induction l with
  | nil =>
      intro v
      cases v
      simp [vecSum, Vec3.add, Vec3.zero]
  | cons a t ih =>
      intro v
      simp only [List.foldl_cons, vecSum, List.foldr_cons, ih]
      rw [vec_add_assoc]

theorem zipWith_map_same {α β γ δ : Type _} (f : β → γ → δ) (g : α → β)
    (h : α → γ) (l : List α) :
    List.zipWith f (l.map g) (l.map h) = l.map fun x => f (g x) (h x) := by
  induction l with
  | nil => rfl
  | cons a t ih => simp only [List.map_cons, List.zipWith_cons_cons, ih]

/-- Shared evaluation lemma: with nonzero total projected area, the
aggregator returns exactly the spec's area-weighted sum. -/
theorem ac_eval (a : Airplane) (cf : ℚ)
    (h : ((a.wings.map fun w => w.area (some "projected")).sum) ≠ 0) :
    a.aerodynamic_center cf = Except.ok (spec_area_weighted_ac a.wings) := by
  unfold Airplane.aerodynamic_center
  simp only [zipWith_map_same, foldl_add_eq_sum, foldl_vec_add, vec_zero_add,
    zero_add]
  rw [if_neg h]
  rfl

theorem vec_add_zero (v : Vec3) : v.add Vec3.zero = v := by
  cases v
  simp [Vec3.add, Vec3.zero]

/-! ## Claim theorems: construction, symmetry and aerodynamic center -/

/-- C1: at Aggregate construction, each of the reference area, chord and
span not explicitly supplied is set from the first wing's corresponding
query when the wing list is non-empty; explicitly supplied values are
kept; with an empty wing list construction succeeds and each unsupplied
quantity stays `none`. -/
theorem init_reference_resolution (nm : String) (xr : Vec3) (ws : List Wing)
    (fs : List Fuselage) (s c b : Option ℚ) :
    (∀ w rest, ws = w :: rest →
      (Airplane.init nm xr (some ws) (some fs) s c b).s_ref
          = some (s.getD (w.area none)) ∧
      (Airplane.init nm xr (some ws) (some fs) s c b).c_ref
          = some (c.getD w.mean_aerodynamic_chord) ∧
      (Airplane.init nm xr (some ws) (some fs) s c b).b_ref
          = some (b.getD w.span)) ∧
    (∀ v, s = some v →
      (Airplane.init nm xr (some ws) (some fs) s c b).s_ref = some v) ∧
    (∀ v, c = some v →
      (Airplane.init nm xr (some ws) (some fs) s c b).c_ref = some v) ∧
    (∀ v, b = some v →
      (Airplane.init nm xr (some ws) (some fs) s c b).b_ref = some v) ∧
    (ws = [] →
      (Airplane.init nm xr (some ws) (some fs) s c b).s_ref = s ∧
      (Airplane.init nm xr (some ws) (some fs) s c b).c_ref = c ∧
      (Airplane.init nm xr (some ws) (some fs) s c b).b_ref = b) := by
  cases ws with
  | nil =>
      refine ⟨?_, ?_, ?_, ?_, ?_⟩
      · intro w rest hw
        exact absurd hw (by simp)
      · intro v hv
        subst hv
        rfl
      · intro v hv
        subst hv
        rfl
      · intro v hv
        subst hv
        rfl
      · intro _
        exact ⟨rfl, rfl, rfl⟩
  | cons w rest =>
      refine ⟨?_, ?_, ?_, ?_, ?_⟩
      · intro w' rest' hw
        injection hw with h1 h2
        subst h1
        subst h2
        exact ⟨rfl, rfl, rfl⟩
      · intro v hv
        subst hv
        rfl
      · intro v hv
        subst hv
        rfl
      · intro v hv
        subst hv
        rfl
      · intro hcon
        exact absurd hcon (by simp)

/-- Witness for C1 at concrete inputs: a one-wing aggregate derives its
reference area from the wing, an empty aggregate leaves it unset. -/
theorem init_reference_resolution_witness :
    (Airplane.init "Untitled" ⟨0, 0, 0⟩ (some [wingA]) (some []) none none
        none).s_ref = some (Option.getD none (wingA.area none)) ∧
    (Airplane.init "Untitled" ⟨0, 0, 0⟩ (some []) (some []) none none
        none).s_ref = none :=
  ⟨((init_reference_resolution "Untitled" ⟨0, 0, 0⟩ [wingA] [] none none
      none).1 wingA [] rfl).1,
   ((init_reference_resolution "Untitled" ⟨0, 0, 0⟩ [] [] none none
      none).2.2.2.2 rfl).1⟩

/-- C3: with zero wings the aerodynamic-center aggregation raises the
defined division-by-zero error rather than returning a value. -/
theorem ac_empty_zero_division (a : Airplane) (cf : ℚ) (h : a.wings = []) :
    a.aerodynamic_center cf = Except.error PyError.zeroDivisionError := by
  unfold Airplane.aerodynamic_center
  rw [h]
  rfl

/-- Witness for C3 on a concretely constructed empty aggregate. -/
theorem ac_empty_zero_division_witness :
    emptyPlane.aerodynamic_center (1/4)
      = Except.error PyError.zeroDivisionError :=
  ac_empty_zero_division emptyPlane (1/4) rfl

/-- C6: the aggregate symmetry validator is monotonic — any wing whose
own query reports false forces the aggregate result to false. -/
theorem symmetry_monotonic (a : Airplane) (w : Wing) (hw : w ∈ a.wings)
    (h : w.is_entirely_symmetric = false) :
    a.is_entirely_symmetric = false := by
  by_contra hcon
  have hall : a.is_entirely_symmetric = true := by
    cases hb : a.is_entirely_symmetric with
    | true => rfl
    | false => exact absurd hb hcon
  rw [Airplane.is_entirely_symmetric, List.all_eq_true] at hall
  have h1 := hall w hw
  rw [Bool.and_eq_true, h] at h1
  exact Bool.false_ne_true h1.1

/-- Witness for C6 on a one-wing aggregate whose wing reports false. -/
theorem symmetry_monotonic_witness : falsePlane.is_entirely_symmetric = false :=
  symmetry_monotonic falsePlane falseWing
    (by simp [falsePlane, Airplane.init]) rfl

/-- C5 (amended): the airfoil zero-lift / zero-moment conditions are
enforced only for cross-sections of wings NOT marked self-symmetric; on
such a wing, a nonzero lift or moment response at zero incidence forces
the validator to false. -/
theorem asym_airfoil_fails_on_nonsymmetric_wing (a : Airplane) (w : Wing)
    (x : WingXSec) (hw : w ∈ a.wings) (hx : x ∈ w.xsecs)
    (hs : w.symmetric = false)
    (h : x.airfoil.CL_function 0 1000000 0 0 ≠ 0 ∨
         x.airfoil.Cm_function 0 1000000 0 0 ≠ 0) :
    a.is_entirely_symmetric = false := by
  by_contra hcon
  have hall : a.is_entirely_symmetric = true := by
    cases hb : a.is_entirely_symmetric with
    | true => rfl
    | false => exact absurd hb hcon
  rw [Airplane.is_entirely_symmetric, List.all_eq_true] at hall
  have h1 := hall w hw
  rw [Bool.and_eq_true, List.all_eq_true] at h1
  have h2 := h1.2 x hx
  simp only [Bool.and_eq_true, Bool.or_eq_true] at h2
  rcases h2.2 with hsym | hinner
  · rw [hs] at hsym
    exact Bool.false_ne_true hsym
  · rcases h with hcl | hcm
    · exact hcl (of_decide_eq_true hinner.1.2)
    · exact hcm (of_decide_eq_true hinner.2)

/-- Counterexample to C5 as stated: a wing marked self-symmetric whose
cross-section's airfoil has nonzero lift at zero incidence, yet the
validator returns true — the airfoil check is NOT independent of the
wing's self-symmetry flag. -/
theorem symmetry_ignores_airfoil_on_symmetric_wing :
    symWingAsymAirfoilPlane.is_entirely_symmetric = true ∧
    asymXsec.airfoil.CL_function 0 1000000 0 0 ≠ 0 := by
  constructor
  · rfl
  · show (1 : ℚ) ≠ 0
    norm_num

/-- Witness for the amended C5: a non-self-symmetric wing with the same
asymmetric airfoil is rejected. -/
theorem asym_airfoil_fails_witness :
    nonSymPlane.is_entirely_symmetric = false :=
  asym_airfoil_fails_on_nonsymmetric_wing nonSymPlane nonSymWing asymXsec
    (by simp [nonSymPlane, Airplane.init]) (by simp [nonSymWing]) rfl
    (Or.inl (by norm_num [asymXsec, asymAirfoil]))

/-- C10: a single-wing aggregate with nonzero projected area has its
aerodynamic center exactly at the wing's own aerodynamic-center point. -/
theorem single_wing_ac (a : Airplane) (w : Wing) (cf : ℚ)
    (hw : a.wings = [w]) (h : w.area (some "projected") ≠ 0) :
    a.aerodynamic_center cf = Except.ok (w.aerodynamic_center none) := by
  have hsum : ((a.wings.map fun w2 => w2.area (some "projected")).sum)
      = w.area (some "projected") := by
    rw [hw]
    simp
  rw [ac_eval a cf (by rw [hsum]; exact h)]
  unfold spec_area_weighted_ac
  rw [hw]
  simp only [List.map_cons, List.map_nil, vecSum, List.foldr_cons,
    List.foldr_nil, vec_add_zero, List.sum_cons, List.sum_nil, add_zero]
  rw [divScalar_scale _ _ h]

/-- Witness for C10 on a concrete one-wing aggregate. -/
theorem single_wing_ac_witness :
    cfPlane.aerodynamic_center (1/4)
      = Except.ok (cfWing.aerodynamic_center none) :=
  single_wing_ac cfPlane cfWing (1/4) rfl (by norm_num [cfWing])

/-- C2: with nonzero total projected area the aggregate aerodynamic
center is the area-weighted sum of the per-wing aerodynamic centers; in
particular areas 1 and 3 with centers (0,0,0) and (4,0,0) give (3,0,0). -/
theorem ac_area_weighted (a : Airplane) (cf : ℚ)
    (h : ((a.wings.map fun w => w.area (some "projected")).sum) ≠ 0) :
    a.aerodynamic_center cf = Except.ok (spec_area_weighted_ac a.wings) ∧
    twoWingPlane.aerodynamic_center cf = Except.ok ⟨3, 0, 0⟩ := by
  constructor
  · exact ac_eval a cf h
  · rw [ac_eval twoWingPlane cf
      (by norm_num [twoWingPlane, Airplane.init, wingA, wingB, mkWing])]
    have hval : spec_area_weighted_ac twoWingPlane.wings = ⟨3, 0, 0⟩ := by
      simp [spec_area_weighted_ac, twoWingPlane, Airplane.init, wingA, wingB,
        mkWing, vecSum, Vec3.add, Vec3.zero, Vec3.scale, Vec3.divScalar]
      norm_num
    rw [hval]

/-- Witness for C2, instantiated at the two-wing example itself. -/
theorem ac_area_weighted_witness :
    twoWingPlane.aerodynamic_center (1/4)
        = Except.ok (spec_area_weighted_ac twoWingPlane.wings) ∧
    twoWingPlane.aerodynamic_center (1/4) = Except.ok ⟨3, 0, 0⟩ :=
  ac_area_weighted twoWingPlane (1/4)
    (by norm_num [twoWingPlane, Airplane.init, wingA, wingB, mkWing])

/-- C4 (code bug): the aggregator's `chord_fraction` parameter is not
passed through — the source calls `wing.aerodynamic_center()` with no
argument.  A wing whose aerodynamic-center query depends on the received
chord fraction exposes the divergence at `chord_fraction = 1/2`. -/
theorem chord_fraction_ignored :
    cfPlane.aerodynamic_center (1/2) = Except.ok ⟨1/4, 0, 0⟩ ∧
    cfWing.aerodynamic_center (some (1/2)) = ⟨1/2, 0, 0⟩ ∧
    cfPlane.aerodynamic_center (1/2)
      ≠ Except.ok (cfWing.aerodynamic_center (some (1/2))) := by
  have h1 : cfPlane.aerodynamic_center (1/2) = Except.ok ⟨1/4, 0, 0⟩ := by
    rw [ac_eval cfPlane (1/2) (by norm_num [cfPlane, Airplane.init, cfWing])]
    have hval : spec_area_weighted_ac cfPlane.wings = ⟨1/4, 0, 0⟩ := by
      simp [spec_area_weighted_ac, cfPlane, Airplane.init, cfWing, vecSum,
        Vec3.add, Vec3.zero, Vec3.scale, Vec3.divScalar, Option.getD]
    rw [hval]
  have h2 : cfWing.aerodynamic_center (some (1/2)) = ⟨1/2, 0, 0⟩ := rfl
  refine ⟨h1, h2, ?_⟩
  rw [h1, h2]
  intro hcon
  simp only [Except.ok.injEq, Vec3.mk.injEq] at hcon
  exact absurd hcon.1 (by norm_num)

/-! ## String-level helper lemmas for the serializer claims -/

theorem strData_append (a b : String) : (a ++ b).data = a.data ++ b.data := by
  cases a
  cases b
  rfl

theorem strAppend_assoc (a b c : String) : a ++ b ++ c = a ++ (b ++ c) := by
  cases a
  cases b
  cases c
  exact congrArg String.mk (List.append_assoc _ _ _)

theorem strEmpty_append (s : String) : "" ++ s = s := by
  cases s
  rfl

theorem strAppend_empty (s : String) : s ++ "" = s := by
  cases s
  exact congrArg String.mk (List.append_nil _)

theorem splitNl_ne_nil (cs : List Char) : splitNl cs ≠ [] := by
  induction cs with
  | nil => simp [splitNl]
  | cons c cs ih =>
      rw [splitNl]
      split
      · simp
      · cases hs : splitNl cs with
        | nil => exact absurd hs ih
        | cons l ls => simp [hs]

theorem splitNl_cons_ne (c : Char) (cs : List Char) (hc : ¬ c = '\n') :
    splitNl (c :: cs) = match splitNl cs with
      | [] => [[c]]
      | l :: ls => (c :: l) :: ls := by
  conv_lhs => rw [splitNl]
  rw [if_neg hc]

theorem splitNl_append_nl (X B : List Char) :
    splitNl (X ++ '\n' :: B) = splitNl X ++ splitNl B := by
  induction X with
  | nil => rfl
  | cons c X ih =>
      by_cases hc : c = '\n'
      · subst hc
        show splitNl ('\n' :: (X ++ '\n' :: B)) = splitNl ('\n' :: X) ++ splitNl B
        have h1 : splitNl ('\n' :: (X ++ '\n' :: B))
            = [] :: splitNl (X ++ '\n' :: B) := rfl
        have h2 : splitNl ('\n' :: X) = [] :: splitNl X := rfl
        rw [h1, h2, ih]
        rfl
      · show splitNl (c :: (X ++ '\n' :: B)) = splitNl (c :: X) ++ splitNl B
        rw [splitNl_cons_ne c _ hc, splitNl_cons_ne c _ hc, ih]
        cases hs : splitNl X with
        | nil => exact absurd hs (splitNl_ne_nil X)
        | cons l ls => simp [hs]

theorem splitNl_no_nl (l : List Char) (h : '\n' ∉ l) : splitNl l = [l] := by
  induction l with
  | nil => rfl
  | cons c cs ih =>
      have hc : ¬ c = '\n' := fun e => h (by rw [e]; exact List.mem_cons_self _ _)
      have hcs : '\n' ∉ cs := fun m => h (List.mem_cons_of_mem _ m)
      rw [splitNl, if_neg hc, ih hcs]

theorem joinLines_mem (l : List Char) (ls : List (List Char)) (h : l ∈ ls) :
    ∃ u v, joinLines ls = u ++ l ++ v := by
  induction ls with
  | nil => cases h
  | cons m rest ih =>
      rcases List.mem_cons.mp h with he | hm
      · subst he
        cases rest with
        | nil => exact ⟨[], [], by simp [joinLines]⟩
        | cons r rs =>
            exact ⟨[], '\n' :: joinLines (r :: rs), by simp [joinLines]⟩
      · rcases ih hm with ⟨u, v, hu⟩
        cases rest with
        | nil => cases hm
        | cons r rs =>
            refine ⟨m ++ '\n' :: u, v, ?_⟩
            rw [joinLines, hu]
            simp

theorem dropWhile_all_false (p : Char → Bool) (l : List Char)
    (h : ∀ c ∈ l, p c = false) : l.dropWhile p = l := by
  cases l with
  | nil => rfl
  | cons c cs =>
      rw [List.dropWhile_cons, h c (List.mem_cons_self c cs)]
      simp

theorem stripData_nonspace (l : List Char)
    (h : ∀ c ∈ l, pyIsSpace c = false) : stripData l = l := by
  unfold stripData
  rw [dropWhile_all_false _ _ h,
    dropWhile_all_false _ _ (fun c hc => h c (List.mem_reverse.mp hc))]
  exact List.reverse_reverse l

theorem dropWhile_space_leading (ind l : List Char)
    (h : ∀ c ∈ ind, pyIsSpace c = true) :
    (ind ++ l).dropWhile pyIsSpace = l.dropWhile pyIsSpace := by
  induction ind with
  | nil => rfl
  | cons c cs ih =>
      rw [List.cons_append, List.dropWhile_cons,
        h c (List.mem_cons_self c cs)]
      simp only [if_true]
      exact ih (fun c2 hc2 => h c2 (List.mem_cons_of_mem _ hc2))

theorem stripData_indent (ind l : List Char)
    (h : ∀ c ∈ ind, pyIsSpace c = true) :
    stripData (ind ++ l) = stripData l := by
  unfold stripData
  rw [dropWhile_space_leading ind l h]

theorem startsWithL_iff (s p : List Char) :
    startsWithL s p = true ↔ ∃ v, s = p ++ v := by
  induction p generalizing s with
  | nil =>
      simp only [startsWithL, List.nil_append]
      constructor
      · intro _
        exact ⟨s, rfl⟩
      · intro _
        trivial
  | cons d q ih =>
      cases s with
      | nil =>
          simp only [startsWithL]
          constructor
          · intro h
            cases h
          · rintro ⟨v, hv⟩
            cases hv
      | cons c s =>
          simp only [startsWithL, Bool.and_eq_true, decide_eq_true_eq, ih,
            List.cons_append, List.cons.injEq]
          constructor
          · rintro ⟨he, v, hv⟩
            exact ⟨v, he, hv⟩
          · rintro ⟨v, he, hv⟩
            exact ⟨he, v, hv⟩

theorem containsL_iff (s p : List Char) :
    containsL s p = true ↔ ∃ u v, s = u ++ p ++ v := by
  induction s with
  | nil =>
      show startsWithL [] p = true ↔ _
      rw [startsWithL_iff]
      constructor
      · rintro ⟨v, hv⟩
        exact ⟨[], v, by simpa using hv⟩
      · rintro ⟨u, v, huv⟩
        rw [List.append_assoc] at huv
        rcases List.append_eq_nil.mp huv.symm with ⟨hu, hpv⟩
        rcases List.append_eq_nil.mp hpv with ⟨hp, hv⟩
        exact ⟨[], by rw [hp]; rfl⟩
  | cons c s ih =>
      show (startsWithL (c :: s) p || containsL s p) = true ↔ _
      rw [Bool.or_eq_true, startsWithL_iff, ih]
      constructor
      · rintro (⟨v, hv⟩ | ⟨u, v, huv⟩)
        · exact ⟨[], v, by simpa using hv⟩
        · exact ⟨c :: u, v, by simp [huv]⟩
      · rintro ⟨u, v, huv⟩
        cases u with
        | nil => exact Or.inl ⟨v, by simpa using huv⟩
        | cons c2 u =>
            rw [List.cons_append, List.cons_append] at huv
            injection huv with h1 h2
            exact Or.inr ⟨u, v, h2⟩

theorem containsL_self (l : List Char) : containsL l l = true :=
  (containsL_iff l l).mpr ⟨[], [], by simp⟩

theorem containsL_append_right (x y p : List Char)
    (h : containsL x p = true) : containsL (x ++ y) p = true := by
  rcases (containsL_iff x p).mp h with ⟨u, v, hx⟩
  exact (containsL_iff _ _).mpr ⟨u, v ++ y, by rw [hx]; simp⟩

theorem containsL_append_left (x y p : List Char)
    (h : containsL y p = true) : containsL (x ++ y) p = true := by
  rcases (containsL_iff y p).mp h with ⟨u, v, hy⟩
  exact (containsL_iff _ _).mpr ⟨x ++ u, v, by rw [hy]; simp⟩

/-- A line bounded by explicit newline separators survives `clean` as
its stripped form, wherever it sits in the raw template. -/
theorem cleanData_has_line (A L B : List Char) (hL : '\n' ∉ L) :
    ∃ u v, cleanData (A ++ '\n' :: (L ++ '\n' :: B))
      = u ++ stripData L ++ v := by
  have h1 : splitNl (A ++ '\n' :: (L ++ '\n' :: B))
      = splitNl A ++ ([L] ++ splitNl B) := by
    rw [splitNl_append_nl, splitNl_append_nl, splitNl_no_nl L hL]
  rw [cleanData, h1]
  exact joinLines_mem _ _ (List.mem_map_of_mem stripData (by simp))

theorem strJoin_mem {α : Type _} (g : α → String) (x : α) (l : List α)
    (h : x ∈ l) : ∃ s t, strJoin (l.map g) = s ++ (g x ++ t) := by
  induction l with
  | nil => cases h
  | cons y rest ih =>
      rcases List.mem_cons.mp h with he | hm
      · subst he
        refine ⟨"", strJoin (rest.map g), ?_⟩
        rw [strEmpty_append]
        rfl
      · rcases ih hm with ⟨s, t, hs⟩
        refine ⟨g y ++ s, t, ?_⟩
        rw [List.map_cons]
        show g y ++ strJoin (rest.map g) = g y ++ s ++ (g x ++ t)
        rw [hs, strAppend_assoc]

theorem foldl_append_join {α : Type _} (F : String → α → String)
    (g : α → String) (hF : ∀ s b, F s b = s ++ g b) (l : List α) :
    ∀ init : String, l.foldl F init = init ++ strJoin (l.map g) := by
  induction l with
  | nil =>
      intro init
      rw [List.map_nil]
      exact (strAppend_empty init).symm
  | cons b t ih =>
      intro init
      rw [List.foldl_cons, hF, ih, List.map_cons]
      show init ++ g b ++ strJoin (t.map g) = init ++ (g b ++ strJoin (t.map g))
      rw [strAppend_assoc]

theorem wingStep_eq (ch sp : Nat) (s : String) (w : Wing) :
    wingStep ch sp s w = s ++ surfaceBlock ch sp w := by
  unfold wingStep surfaceBlock
  rw [foldl_append_join (fun s2 xsec => s2 ++ clean (xsecRaw xsec))
    (fun xsec => clean (xsecRaw xsec)) (fun _ _ => rfl)]
  rw [strAppend_assoc]

theorem fuseStep_foldl (fp : String) (fu : Nat) (l : List (Nat × Fuselage)) :
    ∀ (s : String) (fs : List String),
    l.foldl (fuseStep fp fu) (s, fs)
      = (s ++ strJoin (l.map (bodyBlock fu fp)),
         fs ++ l.map fun p => fusePath fp p.1) := by
  induction l with
  | nil =>
      intro s fs
      rw [List.map_nil, List.map_nil, List.foldl_nil]
      show (s, fs) = (s ++ "", fs ++ [])
      rw [strAppend_empty]
      simp
  | cons p t ih =>
      intro s fs
      rw [List.foldl_cons]
      rw [show fuseStep fp fu (s, fs) p
          = (s ++ bodyBlock fu fp p, fs ++ [fusePath fp p.1]) from rfl]
      rw [ih, List.map_cons, List.map_cons]
      simp only [Prod.mk.injEq]
      constructor
      · show s ++ bodyBlock fu fp p ++ strJoin (t.map (bodyBlock fu fp))
            = s ++ (bodyBlock fu fp p ++ strJoin (t.map (bodyBlock fu fp)))
        rw [strAppend_assoc]
      · simp

/-- Shared shape lemma: with a destination supplied, `write_avl`
succeeds and its output decomposes into the cleaned header, one surface
block per wing in order, and one body block per fuselage in order, with
one auxiliary file path per fuselage. -/
theorem write_avl_ok (a : Airplane) (fp : String) (sp ch fu : Nat) :
    a.write_avl (some fp) sp ch fu = Except.ok
      { doc := clean (headerRaw a)
          ++ (strJoin (a.wings.map (surfaceBlock ch sp))
          ++ strJoin ((a.fuselages.enum).map (bodyBlock fu fp))),
        fuse_files := (a.fuselages.enum).map fun p => fusePath fp p.1,
        main_file := fp } := by
  unfold Airplane.write_avl
  dsimp only
  rw [foldl_append_join (wingStep ch sp) (surfaceBlock ch sp)
    (wingStep_eq ch sp)]
  rw [fuseStep_foldl]
  dsimp only
  rw [strEmpty_append, strAppend_assoc]
  simp

theorem pyIsSpace_digitChar : ∀ n : Nat, pyIsSpace (Nat.digitChar n) = false
  | 0 => rfl
  | 1 => rfl
  | 2 => rfl
  | 3 => rfl
  | 4 => rfl
  | 5 => rfl
  | 6 => rfl
  | 7 => rfl
  | 8 => rfl
  | 9 => rfl
  | 10 => rfl
  | 11 => rfl
  | 12 => rfl
  | 13 => rfl
  | 14 => rfl
  | 15 => rfl
  | _ + 16 => rfl

theorem toDigitsCore_nonspace (b : Nat) (fuel : Nat) : ∀ (n : Nat)
    (acc : List Char), (∀ c ∈ acc, pyIsSpace c = false) →
    ∀ c ∈ Nat.toDigitsCore b fuel n acc, pyIsSpace c = false := by
  induction fuel with
  | zero =>
      intro n acc hacc
      simpa [Nat.toDigitsCore] using hacc
  | succ fuel ih =>
      intro n acc hacc
      rw [Nat.toDigitsCore]
      split
      · intro c hc
        rcases List.mem_cons.mp hc with he | hm
        · subst he
          exact pyIsSpace_digitChar _
        · exact hacc c hm
      · apply ih
        intro c hc
        rcases List.mem_cons.mp hc with he | hm
        · subst he
          exact pyIsSpace_digitChar _
        · exact hacc c hm

theorem natToString_nonspace (n : Nat) :
    ∀ c ∈ (toString n).data, pyIsSpace c = false := by
  intro c hc
  have hd : (toString n).data = Nat.toDigits 10 n := rfl
  rw [hd, Nat.toDigits] at hc
  exact toDigitsCore_nonspace 10 (n + 1) n [] (by intro c2 hc2; cases hc2) c hc

theorem fusePath_nonspace (fp : String) (i : Nat)
    (hfp : ∀ c ∈ fp.data, pyIsSpace c = false) :
    ∀ c ∈ (fusePath fp i).data, pyIsSpace c = false := by
  intro c hc
  rw [fusePath, strData_append, strData_append] at hc
  rcases List.mem_append.mp hc with h1 | h2
  · rcases List.mem_append.mp h1 with ha | hb
    · exact hfp c ha
    · exact (by decide : ∀ c2 ∈ ".fuse".data, pyIsSpace c2 = false) c hb
  · exact natToString_nonspace i c h2

/-- With unset reference quantities the cleaned header contains the
Python text `None`. -/
theorem header_contains_none (a : Airplane) (hs : a.s_ref = none)
    (hc : a.c_ref = none) (hb : a.b_ref = none) :
    strContains (clean (headerRaw a)) "None" = true := by
  have href : headerRefLine a = "        None None None" := by
    rw [headerRefLine, hs, hc, hb]
    rfl
  have hdata : (headerRaw a).data
      = (headerPre a).data ++ '\n' :: ("        None None None".data
        ++ '\n' :: (headerPost a).data) := by
    rw [headerRaw, href]
    rw [strData_append, strData_append, strData_append, strData_append]
    simp
  unfold strContains clean
  rw [hdata]
  rcases cleanData_has_line ((headerPre a).data)
    ("        None None None".data) ((headerPost a).data) (by decide)
    with ⟨u, v, hcl⟩
  rw [hcl]
  have h1 : containsL (stripData ("        None None None".data))
      ("None".data) = true := by decide
  rw [List.append_assoc]
  exact containsL_append_left _ _ _ (containsL_append_right _ _ _ h1)

theorem bodyRaw_data (fu : Nat) (fuse : Fuselage) (pth : String) :
    (bodyRaw fu fuse pth).data
      = (bodyPre fu fuse).data
        ++ '\n' :: (("            ".data ++ pth.data)
        ++ '\n' :: ("            \n            " : String).data) := by
  rw [bodyRaw]
  rw [strData_append, strData_append, strData_append, strData_append]
  simp

/-- Each serialized BODY block contains its auxiliary file path (the
BFIL reference), provided the destination path has no whitespace. -/
theorem bodyBlock_contains_path (fu : Nat) (fp : String) (p : Nat × Fuselage)
    (hfp : ∀ c ∈ fp.data, pyIsSpace c = false) :
    strContains (bodyBlock fu fp p) (fusePath fp p.1) = true := by
  have hpathns : ∀ c ∈ (fusePath fp p.1).data, pyIsSpace c = false :=
    fusePath_nonspace fp p.1 hfp
  have hLns : '\n' ∉ ("            ".data ++ (fusePath fp p.1).data) := by
    intro hm
    rcases List.mem_append.mp hm with h1 | h2
    · exact absurd h1 (by decide)
    · exact absurd (hpathns _ h2) (by decide)
  unfold strContains bodyBlock clean
  rw [bodyRaw_data]
  rcases cleanData_has_line _ _ _ hLns with ⟨u, v, hcl⟩
  rw [hcl]
  have hstrip : stripData ("            ".data ++ (fusePath fp p.1).data)
      = (fusePath fp p.1).data := by
    rw [stripData_indent _ _ (by decide)]
    exact stripData_nonspace _ hpathns
  rw [hstrip, List.append_assoc]
  exact containsL_append_left _ _ _
    (containsL_append_right _ _ _ (containsL_self _))

/-! ## Claim theorems: the AVL serializer -/

/-- C7 (code bug): calling the serializer with destination `None`
raises `TypeError` at `filepath = Path(filepath)` (line 202) instead of
entering the string-only mode promised by its docstring. -/
theorem write_avl_none_type_error (a : Airplane) (sp ch fu : Nat) :
    a.write_avl none sp ch fu = Except.error PyError.typeError := rfl

/-- Counterexample to C8 as stated: on an aggregate whose reference
quantities are unset, the serializer does not fail — it succeeds and the
emitted header contains the non-numeric placeholder `None`. -/
theorem unset_refs_not_loud_cex :
    ∃ out, emptyPlane.write_avl (some "plane.avl") 12 12 24
        = Except.ok out ∧
      strContains out.doc "None" = true ∧ emptyPlane.s_ref = none := by
  refine ⟨_, write_avl_ok emptyPlane "plane.avl" 12 12 24, ?_, rfl⟩
  show strContains (clean (headerRaw emptyPlane)
    ++ (strJoin (emptyPlane.wings.map (surfaceBlock 12 12))
    ++ strJoin ((emptyPlane.fuselages.enum).map
        (bodyBlock 24 "plane.avl")))) "None" = true
  unfold strContains
  rw [strData_append]
  exact containsL_append_right _ _ _
    (header_contains_none emptyPlane rfl rfl rfl)

/-- C8 (amended): when the reference quantities are unset at
serialization time the serializer succeeds and silently interpolates the
text `None` into the header line. -/
theorem unset_refs_silently_emit_none (a : Airplane) (fp : String)
    (sp ch fu : Nat) (hs : a.s_ref = none) (hc : a.c_ref = none)
    (hb : a.b_ref = none) :
    ∃ out, a.write_avl (some fp) sp ch fu = Except.ok out ∧
      strContains out.doc "None" = true := by
  refine ⟨_, write_avl_ok a fp sp ch fu, ?_⟩
  show strContains (clean (headerRaw a)
    ++ (strJoin (a.wings.map (surfaceBlock ch sp))
    ++ strJoin ((a.fuselages.enum).map (bodyBlock fu fp)))) "None" = true
  unfold strContains
  rw [strData_append]
  exact containsL_append_right _ _ _ (header_contains_none a hs hc hb)

/-- Witness for the amended C8 on a concretely constructed aggregate. -/
theorem unset_refs_silently_emit_none_witness :
    ∃ out, emptyPlane.write_avl (some "out.avl") 12 12 24 = Except.ok out ∧
      strContains out.doc "None" = true :=
  unset_refs_silently_emit_none emptyPlane "out.avl" 12 12 24 rfl rfl rfl

/-- C9: the serializer emits exactly one surface block per wing in
wing-list order and one body block per fuselage in body-list order,
writes exactly one auxiliary profile file per body at the destination
path extended with a per-index suffix, and the document references each
auxiliary file by that path. -/
theorem write_avl_blocks (a : Airplane) (fp : String) (sp ch fu : Nat)
    (hfp : ∀ c ∈ fp.data, pyIsSpace c = false) :
    ∃ out, a.write_avl (some fp) sp ch fu = Except.ok out ∧
      out.doc = clean (headerRaw a)
          ++ (strJoin (a.wings.map (surfaceBlock ch sp))
          ++ strJoin ((a.fuselages.enum).map (bodyBlock fu fp))) ∧
      out.fuse_files = (a.fuselages.enum).map (fun p => fusePath fp p.1) ∧
      out.fuse_files.length = a.fuselages.length ∧
      (∀ pth ∈ out.fuse_files, strContains out.doc pth = true) := by
  refine ⟨_, write_avl_ok a fp sp ch fu, rfl, rfl, ?_, ?_⟩
  · show (((a.fuselages.enum).map fun p => fusePath fp p.1)).length
        = a.fuselages.length
    rw [List.length_map, List.enum_length]
  · intro pth hpth
    rcases List.mem_map.mp hpth with ⟨p, hp, hpe⟩
    subst hpe
    show strContains (clean (headerRaw a)
      ++ (strJoin (a.wings.map (surfaceBlock ch sp))
      ++ strJoin ((a.fuselages.enum).map (bodyBlock fu fp))))
        (fusePath fp p.1) = true
    unfold strContains
    rw [strData_append, strData_append]
    apply containsL_append_left
    apply containsL_append_left
    rcases strJoin_mem (bodyBlock fu fp) p _ hp with ⟨s, t, hsj⟩
    rw [hsj, strData_append, strData_append]
    apply containsL_append_left
    apply containsL_append_right
    exact bodyBlock_contains_path fu fp p hfp

/-- Witness for C9 on a one-wing one-fuselage aggregate with a concrete
destination path. -/
theorem write_avl_blocks_witness :
    ∃ out, oneFusePlane.write_avl (some "plane.avl") 12 12 24
        = Except.ok out ∧
      out.doc = clean (headerRaw oneFusePlane)
          ++ (strJoin (oneFusePlane.wings.map (surfaceBlock 12 12))
          ++ strJoin ((oneFusePlane.fuselages.enum).map
              (bodyBlock 24 "plane.avl"))) ∧
      out.fuse_files = (oneFusePlane.fuselages.enum).map
          (fun p => fusePath "plane.avl" p.1) ∧
      out.fuse_files.length = oneFusePlane.fuselages.length ∧
      (∀ pth ∈ out.fuse_files, strContains out.doc pth = true) :=
  write_avl_blocks oneFusePlane "plane.avl" 12 12 24 (by decide)
